import Mathlib

/-
  Verification of the dataset-aggregation core of the movie-analytics
  repository (class MovieDataset in src/movie_dataset.py).

  Shallow embedding conventions:
  - pandas DataFrames become Lean lists of records; a NaN cell becomes
    Option.none or a dedicated constructor of a cell type;
  - Python runtime values passed as aggregator arguments become the PyVal
    type, so that the isinstance checks of the source can be modelled
    (Python bool is a subtype of int, so isinstance(True, int) holds);
  - raised exceptions become Except.error carrying the message of the
    source; machine floats are modelled as exact rationals, which is
    faithful for the order comparisons the code performs;
  - the one in-place DataFrame write of the source (the column assignment
    in actor_distributions, performed on a fresh .copy()) is modelled with
    an explicit heap of character tables, so that non-mutation of the
    loaded tables is a provable statement rather than a modelling artifact.
-/

namespace MovieDS

/-- Python runtime values that can be passed to the aggregator methods. -/
inductive PyVal where
  | int (n : Int)
  | bool (b : Bool)
  | float (q : ℚ)
  | str (s : String)
deriving DecidableEq

/-- Translation of isinstance(x, int). Python bool is a subtype of int,
so a bool passes this check. -/
def PyVal.isInstInt : PyVal → Bool
  | .int _ => true
  | .bool _ => true
  | _ => false

/-- Translation of isinstance(x, str). -/
def PyVal.isInstStr : PyVal → Bool
  | .str _ => true
  | _ => false

/-- Translation of isinstance(x, (int, float)). A bool passes, being an int. -/
def PyVal.isInstNum : PyVal → Bool
  | .int _ => true
  | .bool _ => true
  | .float _ => true
  | _ => false

/-- Integer value of a PyVal. Only read behind an isInstInt guard, matching
the source, where N is used as an integer only after the isinstance check;
the values on the remaining branches are never observed. -/
def PyVal.toInt : PyVal → Int
  | .int n => n
  | .bool b => if b then 1 else 0
  | .float _ => 0
  | .str _ => 0

/-- Numeric value of a PyVal. Only read behind an isInstNum guard. -/
def PyVal.toRat : PyVal → ℚ
  | .int n => (n : ℚ)
  | .bool b => if b then 1 else 0
  | .float q => q
  | .str _ => 0

/-- The genres cell of a movie row: NaN, a string that ast.literal_eval
rejects, or a decoded mapping of genre id to genre name. -/
inductive GenresField where
  | na
  | malformed (raw : String)
  | dict (entries : List (String × String))
deriving DecidableEq

/-- One row of movie.metadata.tsv, with the column names assigned by
MovieDataset loading code. Only the genres column carries structure the
aggregators inspect. -/
structure MovieRecord where
  movie_id : String := ""
  title : String := ""
  release_date : String := ""
  revenue : Option ℚ := none
  runtime : Option ℚ := none
  languages : String := ""
  countries : String := ""
  genres : GenresField := .na
deriving DecidableEq

/-- The raw actor_height cell: a numeric value, NaN, or non-numeric text. -/
inductive RawHeight where
  | num (q : ℚ)
  | na
  | text (s : String)
deriving DecidableEq

/-- Whether the cell currently holds a numeric value. -/
def RawHeight.isNum : RawHeight → Bool
  | .num _ => true
  | _ => false

/-- Numeric reading of the cell; only read on rows that survived the
dropna step, where the cell is numeric. -/
def RawHeight.val : RawHeight → ℚ
  | .num q => q
  | _ => 0

/-- Translation of pd.to_numeric(x, errors coerce) on one cell: a numeric
cell keeps its value, anything else becomes NaN (here: none). -/
def to_numeric : RawHeight → Option ℚ
  | .num q => some q
  | .na => none
  | .text _ => none

/-- One row of character.metadata.tsv, with the thirteen column names
assigned by the loading code. -/
structure CharacterRecord where
  wiki_character_id : String := ""
  freebase_movie_id : String := ""
  release_date : String := ""
  character_name : String := ""
  actor_dob : String := ""
  actor_gender : Option String := none
  actor_height : RawHeight := .na
  actor_ethnicity : String := ""
  actor_name : String := ""
  actor_age_at_movie_release : Option ℚ := none
  freebase_character_map_1 : String := ""
  freebase_character_map_2 : String := ""
  freebase_character_map_3 : String := ""
deriving DecidableEq

/-
  Loader (_load_data). The try block reads movie.metadata.tsv, then
  character.metadata.tsv; a missing file raises FileNotFoundError at the
  read. The except clause catches FileNotFoundError, prints a message and
  returns normally, leaving the table attributes unset. A raw file is
  modelled as present (some rows) or missing (none); the result is
  Except.error for a propagated exception, Except.ok (some tables) for a
  successful load, and Except.ok none for the caught-and-printed path in
  which the method returns normally with no tables set.
-/

/-- The two raw input files; none models a missing file. -/
structure RawFiles where
  movie_file : Option (List MovieRecord)
  character_file : Option (List CharacterRecord)

/-- The two in-memory tables set on success. -/
structure LoadedTables where
  movie_metadata : List MovieRecord
  character_metadata : List CharacterRecord
deriving DecidableEq

/-- Translation of MovieDataset loading: read the movie file, then the
character file; on FileNotFoundError print and return normally with no
tables set (ok none). No exception is propagated on a missing file. -/
def load_data (fs : RawFiles) : Except String (Option LoadedTables) :=
  match fs.movie_file with
  | none => Except.ok none
  | some movies =>
    match fs.character_file with
    | none => Except.ok none
    | some chars => Except.ok (some { movie_metadata := movies, character_metadata := chars })

/-
  Genre aggregator (movie_type). A collections.Counter is modelled as an
  association list in insertion order with pairwise distinct keys.
-/

/-- Add one occurrence of a key to a Counter: increment the existing entry
or append a fresh entry with count one. -/
def counterIncr : List (String × Nat) → String → List (String × Nat)
  | [], g => [(g, 1)]
  | (k, v) :: rest, g =>
    if k = g then (k, v + 1) :: rest else (k, v) :: counterIncr rest g

/-- Translation of Counter.update with an iterable of keys. -/
def counterUpdate (cnt : List (String × Nat)) (gs : List String) : List (String × Nat) :=
  gs.foldl counterIncr cnt

/-- Count held by a Counter for a key (zero when absent). -/
def counterCount : List (String × Nat) → String → Nat
  | [], _ => 0
  | (k, v) :: rest, g => if k = g then v else counterCount rest g

/-- Keys of a Counter in insertion order. -/
def counterKeys (cnt : List (String × Nat)) : List String :=
  cnt.map Prod.fst

/-- The loop of movie_type: for each movie row, skip a NaN genres cell,
skip a cell ast.literal_eval rejects (print and continue), and otherwise
update the Counter with the values of the decoded mapping. -/
def movieCounter (movies : List MovieRecord) : List (String × Nat) :=
  movies.foldl
    (fun cnt m =>
      match m.genres with
      | .na => cnt
      | .malformed _ => cnt
      | .dict entries => counterUpdate cnt (entries.map Prod.snd))
    []

/-- Genre names a single row contributes: none for a NaN or undecodable
cell, the mapping values otherwise. Used to state what movieCounter
tallies. -/
def genreNames : GenresField → List String
  | .na => []
  | .malformed _ => []
  | .dict entries => entries.map Prod.snd

/-- Translation of DataFrame.nlargest(n, Count) with the default keep
first: empty for n at most zero, otherwise a stable descending sort by
the count followed by taking n rows. -/
def nlargest (n : Int) (df : List (String × Nat)) : List (String × Nat) :=
  if n ≤ 0 then []
  else (df.mergeSort fun a b => decide (b.2 ≤ a.2)).take n.toNat

/-- Translation of MovieDataset.movie_type: reject a non-int N with
ValueError, otherwise tally genre names over all rows and return the N
rows with the largest counts. -/
def movie_type (movies : List MovieRecord) (N : PyVal) :
    Except String (List (String × Nat)) :=
  if !N.isInstInt then Except.error "N must be an integer."
  else Except.ok (nlargest N.toInt (movieCounter movies))

/-
  Actor-count aggregator (actor_count). groupby on freebase_movie_id
  followed by count of wiki_character_id, then value_counts. The source
  orders group keys and histogram rows in pandas-specific ways; the spec
  treats row order as unspecified, and the claims are order-independent,
  so groups appear here in first-occurrence order.
-/

/-- Distinct movie ids appearing in the character table. -/
def movieIds (chars : List CharacterRecord) : List String :=
  (chars.map (fun r => r.freebase_movie_id)).dedup

/-- Size of one groupby group: the number of character rows carrying the
given movie id. Every row carries a wiki_character_id, so the count of
that column equals the group size. -/
def groupSize (chars : List CharacterRecord) (mid : String) : Nat :=
  chars.countP (fun r => r.freebase_movie_id == mid)

/-- The per-movie actor counts, one per distinct movie id. -/
def actorCountsPerMovie (chars : List CharacterRecord) : List Nat :=
  (movieIds chars).map (groupSize chars)

/-- Translation of Series.value_counts: one row per distinct value with
its frequency. -/
def valueCounts (xs : List Nat) : List (Nat × Nat) :=
  xs.dedup.map (fun v => (v, xs.count v))

/-- Translation of MovieDataset.actor_count: the histogram of per-movie
actor counts, rows named Number_of_Actors and Movie_Count. -/
def actor_count (chars : List CharacterRecord) : List (Nat × Nat) :=
  valueCounts (actorCountsPerMovie chars)

/-
  Height filter (actor_distributions).
-/

/-- Effect of the column assignment with pd.to_numeric on one row: the
height cell becomes its coerced value or NaN. -/
def coerceRow (r : CharacterRecord) : CharacterRecord :=
  { r with actor_height :=
      match to_numeric r.actor_height with
      | some q => .num q
      | none => .na }

/-- Translation of MovieDataset.actor_distributions without the plotting
branch (plot defaults to False; the branch draws and shows a figure and
touches no table). Validation first, then coercion of the height column,
dropna on it, the inclusive range filter, and the gender filter unless
gender is All. -/
def actor_distributions (chars : List CharacterRecord) (gender lo hi : PyVal) :
    Except String (List CharacterRecord) :=
  match gender with
  | .str g =>
    if lo.isInstNum && hi.isInstNum then
      let df := chars.map coerceRow
      let df := df.filter (fun r => r.actor_height.isNum)
      let df := df.filter (fun r =>
        decide (lo.toRat ≤ r.actor_height.val) && decide (r.actor_height.val ≤ hi.toRat))
      let df := if g ≠ "All" then df.filter (fun r => r.actor_gender == some g) else df
      Except.ok df
    else Except.error "Height values must be numerical."
  | _ => Except.error "Gender must be a string."

/-- Pointwise form of the retained-row condition: the raw height coerces
and the coerced value lies in the inclusive range. -/
def heightWithin (lo hi : ℚ) (r : CharacterRecord) : Bool :=
  match to_numeric r.actor_height with
  | some q => decide (lo ≤ q) && decide (q ≤ hi)
  | none => false

/-
  Stateful view of the dataset object, for the non-mutation claims. The
  loaded character table lives in a heap of table objects so that the one
  in-place write of the source, the height-column assignment performed on
  the fresh object returned by .copy(), is an explicit heap update at the
  reference of the copy, not at the reference the dataset holds. The
  remaining pipeline steps (dropna, the boolean-mask filters) build new
  objects in the source and are values here. movie_type and actor_count
  assign no attribute and perform no in-place operation on any table, so
  they read the state and leave it as is.
-/

/-- The dataset object: the movie table, a heap of character-table
objects, and the reference the character_metadata attribute holds. -/
structure DatasetState where
  movie_metadata : List MovieRecord
  heap : List (List CharacterRecord)
  charRef : Nat

/-- The character table the dataset currently sees. -/
def DatasetState.charTable (s : DatasetState) : List CharacterRecord :=
  s.heap.getD s.charRef []

/-- Translation of actor_distributions against the heap: validate, copy
the character table to a fresh reference, assign the coerced height
column in place at that reference, then filter. The returned state keeps
the heap extended by the scratch object. -/
def actor_distributions_heap (s : DatasetState) (gender lo hi : PyVal) :
    Except String (List CharacterRecord) × DatasetState :=
  match gender with
  | .str g =>
    if lo.isInstNum && hi.isInstNum then
      let dfRef := s.heap.length
      let heap1 := s.heap ++ [s.charTable]
      let heap2 := heap1.set dfRef ((heap1.getD dfRef []).map coerceRow)
      let df := (heap2.getD dfRef []).filter (fun r => r.actor_height.isNum)
      let df := df.filter (fun r =>
        decide (lo.toRat ≤ r.actor_height.val) && decide (r.actor_height.val ≤ hi.toRat))
      let df := if g ≠ "All" then df.filter (fun r => r.actor_gender == some g) else df
      (Except.ok df, { s with heap := heap2 })
    else (Except.error "Height values must be numerical.", s)
  | _ => (Except.error "Gender must be a string.", s)

/-- One aggregator invocation with its arguments. -/
inductive AggCall where
  | movieType (N : PyVal)
  | actorCount
  | actorDistributions (gender lo hi : PyVal)

/-- A returned table or a raised error, for any of the three aggregators. -/
inductive AggOut where
  | genreTable (rows : List (String × Nat))
  | histTable (rows : List (Nat × Nat))
  | characterTable (rows : List CharacterRecord)
  | err (msg : String)

/-- Run one aggregator call against the dataset state. -/
def runCall (s : DatasetState) : AggCall → AggOut × DatasetState
  | .movieType N =>
    (match movie_type s.movie_metadata N with
     | .ok rows => .genreTable rows
     | .error e => .err e, s)
  | .actorCount => (.histTable (actor_count s.charTable), s)
  | .actorDistributions g lo hi =>
    match actor_distributions_heap s g lo hi with
    | (.ok rows, s2) => (.characterTable rows, s2)
    | (.error e, s2) => (.err e, s2)

/-- Run a sequence of aggregator calls, threading the state. -/
def runCalls (s : DatasetState) (calls : List AggCall) : DatasetState :=
  calls.foldl (fun s c => (runCall s c).2) s

/-
  Spec-side definitions, used only to state the claims against the code.
-/

/-- All genre names contributed across the movie table, in row order. -/
def allGenreNames (movies : List MovieRecord) : List String :=
  (movies.map fun m => genreNames m.genres).flatten

/-- The number of distinct genre names across the table, following the
wording of the spec. -/
def specDistinctGenreCount (movies : List MovieRecord) : Nat :=
  (allGenreNames movies).dedup.length

/-- A small concrete movie table: Drama twice, Comedy once, one NaN
genres cell and one undecodable cell. -/
def moviesEx : List MovieRecord :=
  [{ movie_id := "m1", genres := .dict [("1", "Drama")] },
   { movie_id := "m2", genres := .dict [("1", "Drama")] },
   { movie_id := "m3", genres := .dict [("2", "Comedy")] },
   { movie_id := "m4", genres := .na },
   { movie_id := "m5", genres := .malformed "oops" }]

/-- A concrete character row: female, height 170. -/
def rowF170 : CharacterRecord :=
  { wiki_character_id := "c1", freebase_movie_id := "m1",
    actor_gender := some "F", actor_height := .num 170 }

/-- A concrete character row: male, height 180. -/
def rowM180 : CharacterRecord :=
  { wiki_character_id := "c2", freebase_movie_id := "m1",
    actor_gender := some "M", actor_height := .num 180 }

/-- A concrete character row: male, non-numeric height text. -/
def rowMText : CharacterRecord :=
  { wiki_character_id := "c3", freebase_movie_id := "m2",
    actor_gender := some "M", actor_height := .text "tall" }

/-- A concrete character row: NaN gender, height 210. -/
def rowNone210 : CharacterRecord :=
  { wiki_character_id := "c4", freebase_movie_id := "m2",
    actor_gender := none, actor_height := .num 210 }

/-- A concrete character row: male, coercible height 350, outside the
range 0 to 300. -/
def rowM350 : CharacterRecord :=
  { wiki_character_id := "c1", freebase_movie_id := "m1",
    actor_gender := some "M", actor_height := .num 350 }

/-- A small concrete character table used by witnesses. -/
def charsEx : List CharacterRecord :=
  [rowF170, rowM180, rowMText, rowNone210]

/-- A character table on which the strict-subset claim fails as stated:
the only row has a coercible height, 350, outside the queried range, and
a gender other than F. -/
def charsCex : List CharacterRecord :=
  [rowM350]

/-
  Counter facts.
-/

/-- Adding one key changes exactly that count of the Counter by one. -/
lemma counterCount_counterIncr (cnt : List (String × Nat)) (g g2 : String) :
    counterCount (counterIncr cnt g) g2 =
      counterCount cnt g2 + (if g = g2 then 1 else 0) := by
  induction cnt with
  | nil =>
    simp only [counterIncr, counterCount]
    split_ifs with h1 h2 <;> simp_all
  | cons p rest ih =>
    obtain ⟨k, v⟩ := p
    by_cases hk : k = g
    · subst hk
      simp only [counterIncr, if_pos rfl, counterCount]
      split_ifs with h1 <;> simp_all
    · simp only [counterIncr, if_neg hk, counterCount]
      by_cases h1 : k = g2
      · have h2 : ¬ g = g2 := fun h => hk (h1.trans h.symm)
        simp [h1, h2]
      · simp [h1, ih]

/-- Counter.update adds the multiplicity of each key in the iterable. -/
lemma counterCount_counterUpdate (gs : List String) (cnt : List (String × Nat))
    (g2 : String) :
    counterCount (counterUpdate cnt gs) g2 = counterCount cnt g2 + gs.count g2 := by
  induction gs generalizing cnt with
  | nil => simp [counterUpdate]
  | cons g gs ih =>
    simp only [counterUpdate, List.foldl_cons] at *
    rw [ih, counterCount_counterIncr, List.count_cons]
    by_cases h : g = g2 <;> simp [h] <;> omega

/-- The genre loop of movie_type, started from any Counter, adds exactly
the multiplicity of each genre name among the decoded mapping values of
the rows, skipping NaN and undecodable cells. -/
lemma counterCount_genreFold (movies : List MovieRecord)
    (cnt : List (String × Nat)) (g : String) :
    counterCount
        (movies.foldl
          (fun cnt m =>
            match m.genres with
            | .na => cnt
            | .malformed _ => cnt
            | .dict entries => counterUpdate cnt (entries.map Prod.snd)) cnt) g
      = counterCount cnt g + (allGenreNames movies).count g := by
  induction movies generalizing cnt with
  | nil => simp [allGenreNames]
  | cons m ms ih =>
    rw [List.foldl_cons, ih]
    cases hm : m.genres <;>
      simp [allGenreNames, genreNames, hm, counterCount_counterUpdate,
        List.count_append] <;> omega

/-- The keys after one increment: unchanged when the key is present,
appended at the end when it is fresh. -/
lemma counterIncr_keys (cnt : List (String × Nat)) (g : String) :
    (counterIncr cnt g).map Prod.fst =
      if g ∈ cnt.map Prod.fst then cnt.map Prod.fst
      else cnt.map Prod.fst ++ [g] := by
  induction cnt with
  | nil => simp [counterIncr]
  | cons p rest ih =>
    obtain ⟨k, v⟩ := p
    by_cases hk : k = g
    · subst hk; simp [counterIncr]
    · have hgk : ¬ g = k := fun h => hk h.symm
      simp only [counterIncr, if_neg hk, List.map_cons, List.mem_cons, hgk,
        false_or, ih]
      by_cases hg : g ∈ rest.map Prod.fst <;> simp [hg]

/-- Incrementing preserves distinctness of the Counter keys. -/
lemma counterIncr_keys_nodup (cnt : List (String × Nat)) (g : String)
    (h : (cnt.map Prod.fst).Nodup) : ((counterIncr cnt g).map Prod.fst).Nodup := by
  rw [counterIncr_keys]
  by_cases hg : g ∈ cnt.map Prod.fst <;> simp_all [List.nodup_append]

/-- Membership among the keys after one increment. -/
lemma counterIncr_keys_mem (cnt : List (String × Nat)) (g x : String) :
    x ∈ (counterIncr cnt g).map Prod.fst ↔ x ∈ cnt.map Prod.fst ∨ x = g := by
  rw [counterIncr_keys]
  by_cases hg : g ∈ cnt.map Prod.fst
  · rw [if_pos hg]
    constructor
    · exact Or.inl
    · rintro (h | rfl)
      · exact h
      · exact hg
  · rw [if_neg hg]; simp

/-- Counter.update preserves distinctness of the keys. -/
lemma counterUpdate_keys_nodup (gs : List String) (cnt : List (String × Nat))
    (h : (cnt.map Prod.fst).Nodup) :
    ((counterUpdate cnt gs).map Prod.fst).Nodup := by
  induction gs generalizing cnt with
  | nil => simpa [counterUpdate] using h
  | cons g gs ih =>
    simp only [counterUpdate, List.foldl_cons] at *
    exact ih _ (counterIncr_keys_nodup _ _ h)

/-- Membership among the keys after Counter.update. -/
lemma counterUpdate_keys_mem (gs : List String) (cnt : List (String × Nat))
    (x : String) :
    x ∈ (counterUpdate cnt gs).map Prod.fst ↔ x ∈ cnt.map Prod.fst ∨ x ∈ gs := by
  induction gs generalizing cnt with
  | nil => simp [counterUpdate]
  | cons g gs ih =>
    simp only [counterUpdate, List.foldl_cons] at *
    rw [ih, counterIncr_keys_mem]
    simp [List.mem_cons, or_assoc]

/-- The Counter built by movie_type has pairwise distinct keys. -/
lemma movieCounter_keys_nodup (movies : List MovieRecord) :
    ((movieCounter movies).map Prod.fst).Nodup := by
  suffices h : ∀ cnt : List (String × Nat), (cnt.map Prod.fst).Nodup →
      ((movies.foldl
        (fun cnt m =>
          match m.genres with
          | .na => cnt
          | .malformed _ => cnt
          | .dict entries => counterUpdate cnt (entries.map Prod.snd)) cnt).map
        Prod.fst).Nodup by
    exact h [] (by simp)
  induction movies with
  | nil => intro cnt h; exact h
  | cons m ms ih =>
    intro cnt h
    rw [List.foldl_cons]
    cases hm : m.genres <;> simp only [hm]
    · exact ih cnt h
    · exact ih cnt h
    · exact ih _ (counterUpdate_keys_nodup _ _ h)

/-- The keys of the Counter built by movie_type are exactly the genre
names contributed by the rows. -/
lemma movieCounter_keys_mem (movies : List MovieRecord) (x : String) :
    x ∈ (movieCounter movies).map Prod.fst ↔ x ∈ allGenreNames movies := by
  suffices h : ∀ cnt : List (String × Nat),
      (x ∈ (movies.foldl
        (fun cnt m =>
          match m.genres with
          | .na => cnt
          | .malformed _ => cnt
          | .dict entries => counterUpdate cnt (entries.map Prod.snd)) cnt).map
        Prod.fst ↔ x ∈ cnt.map Prod.fst ∨ x ∈ allGenreNames movies) by
    simpa using h []
  induction movies with
  | nil => intro cnt; simp [allGenreNames]
  | cons m ms ih =>
    intro cnt
    rw [List.foldl_cons]
    cases hm : m.genres <;>
      simp only [hm, ih, counterUpdate_keys_mem, allGenreNames, genreNames,
        List.map_cons, List.flatten_cons, List.mem_append, or_assoc] <;>
      simp [allGenreNames]

/-- The Counter has one entry per distinct genre name. -/
lemma movieCounter_length (movies : List MovieRecord) :
    (movieCounter movies).length = specDistinctGenreCount movies := by
  have hn := movieCounter_keys_nodup movies
  have h1 : (movieCounter movies).length
      = ((movieCounter movies).map Prod.fst).length := by
    simp
  rw [h1, ← List.toFinset_card_of_nodup hn, specDistinctGenreCount,
    ← List.card_toFinset]
  congr 1
  apply Finset.ext
  intro a
  simp only [List.mem_toFinset]
  exact movieCounter_keys_mem movies a

/-
  nlargest facts.
-/

/-- The rows nlargest returns are sorted by count, non-increasing. -/
lemma nlargest_sorted (n : Int) (df : List (String × Nat)) :
    (nlargest n df).Pairwise (fun a b => b.2 ≤ a.2) := by
  unfold nlargest
  split
  · exact List.Pairwise.nil
  · refine List.Pairwise.sublist (List.take_sublist _ _) ?_
    have htrans : ∀ a b c : String × Nat,
        decide (b.2 ≤ a.2) = true → decide (c.2 ≤ b.2) = true →
        decide (c.2 ≤ a.2) = true := by
      intro a b c h1 h2
      simp only [decide_eq_true_eq] at *
      omega
    have htotal : ∀ a b : String × Nat,
        (decide (b.2 ≤ a.2) || decide (a.2 ≤ b.2)) = true := by
      intro a b
      simpa using Nat.le_total b.2 a.2
    exact (List.sorted_mergeSort htrans htotal df).imp
      (fun hab => of_decide_eq_true hab)

/-- For a natural n, nlargest returns the smaller of n and the table
size. -/
lemma nlargest_length_nat (n : Nat) (df : List (String × Nat)) :
    (nlargest (n : Int) df).length = min n df.length := by
  unfold nlargest
  split
  case isTrue h =>
    have hn : n = 0 := by omega
    simp [hn]
  case isFalse h =>
    simp [List.length_take, List.length_mergeSort, Int.toNat_natCast]

/-
  value_counts facts.
-/

/-- The frequencies reported by value_counts sum to the number of
underlying values. -/
lemma sum_dedup_count (xs : List Nat) :
    (xs.dedup.map fun v => xs.count v).sum = xs.length := by
  have h := Multiset.toFinset_sum_count_eq (xs : Multiset Nat)
  rw [Finset.sum] at h
  rw [Multiset.toFinset_val] at h
  rw [Multiset.coe_dedup] at h
  rw [Multiset.map_coe, Multiset.sum_coe, Multiset.coe_card] at h
  rw [← h]
  congr 1
  apply List.map_congr_left
  intro a _
  exact (Multiset.coe_count a xs).symm

/-
  Height-filter facts.
-/

/-- On a row whose height cell is numeric, the coercion step is the
identity. -/
lemma coerceRow_num {r : CharacterRecord} {q : ℚ} (hr : r.actor_height = .num q) :
    coerceRow r = r := by
  unfold coerceRow
  rw [hr]
  show { r with actor_height := RawHeight.num q } = r
  rw [← hr]

/-- Coercing then dropping NaN heights then filtering to the inclusive
range equals one filter by the heightWithin condition. -/
lemma coerce_range_filter (chars : List CharacterRecord) (l h : ℚ) :
    (((chars.map coerceRow).filter fun r => r.actor_height.isNum).filter fun r =>
        decide (l ≤ r.actor_height.val) && decide (r.actor_height.val ≤ h))
      = chars.filter (heightWithin l h) := by
  induction chars with
  | nil => rfl
  | cons r rest ih =>
    cases hr : r.actor_height with
    | num q =>
      rw [List.map_cons, coerceRow_num hr]
      simp [List.filter_cons, hr, RawHeight.isNum, RawHeight.val,
        heightWithin, to_numeric] at ih ⊢
      simp [ih]
    | na =>
      have hcr : (coerceRow r).actor_height = .na := by simp [coerceRow, hr, to_numeric]
      have hnum : (coerceRow r).actor_height.isNum = false := by rw [hcr]; rfl
      have hw : heightWithin l h r = false := by simp [heightWithin, hr, to_numeric]
      simp [-List.filter_filter, List.filter_cons, hnum, hw, ih]
    | text s =>
      have hcr : (coerceRow r).actor_height = .na := by simp [coerceRow, hr, to_numeric]
      have hnum : (coerceRow r).actor_height.isNum = false := by rw [hcr]; rfl
      have hw : heightWithin l h r = false := by simp [heightWithin, hr, to_numeric]
      simp [-List.filter_filter, List.filter_cons, hnum, hw, ih]

/-- The whole pipeline of actor_distributions, for any string gender and
numeric bounds, equals one order-preserving filter of the character
table: the raw height coerces into the inclusive range, and, unless the
gender argument is All, the gender cell equals the requested value. -/
lemma adist_filter (chars : List CharacterRecord) (g : String) (lo hi : PyVal)
    (h1 : lo.isInstNum = true) (h2 : hi.isInstNum = true) :
    actor_distributions chars (.str g) lo hi =
      Except.ok (chars.filter fun r =>
        heightWithin lo.toRat hi.toRat r && (g == "All" || r.actor_gender == some g)) := by
  unfold actor_distributions
  rw [h1, h2]
  simp only [Bool.and_self, if_true]
  by_cases hg : g = "All"
  · subst hg
    rw [if_neg (by simp)]
    rw [coerce_range_filter]
    congr 1
    apply List.filter_congr
    intro r _
    simp
  · rw [if_pos hg]
    rw [coerce_range_filter]
    rw [List.filter_filter]
    congr 1
    apply List.filter_congr
    intro r _
    have hgf : (g == "All") = false := by simp [hg]
    simp [hgf, Bool.and_comm]

/-- The heap write of actor_distributions happens at the reference of the
fresh copy, so the table any other reference sees is unchanged, the
dataset reference included. -/
lemma heap_write_preserves (hp : List (List CharacterRecord)) (i : Nat) :
    ((hp ++ [hp.getD i []]).set hp.length
        (((hp ++ [hp.getD i []]).getD hp.length []).map coerceRow)).getD i []
      = hp.getD i [] := by
  have hget : (hp ++ [hp.getD i []]).getD hp.length [] = hp.getD i [] := by
    simp [List.getD_eq_getElem?_getD, List.getElem?_append]
  rw [hget]
  rcases lt_trichotomy i hp.length with h | h | h
  · have hne : ¬ hp.length = i := by omega
    simp [List.getD_eq_getElem?_getD, List.getElem?_set, hne,
      List.getElem?_append, h]
  · subst h
    have hnone : hp.getD hp.length [] = [] := by
      simp [List.getD_eq_getElem?_getD, List.getElem?_eq_none (le_refl hp.length)]
    simp [hnone, List.getD_eq_getElem?_getD, List.getElem?_set]
  · have hne : ¬ hp.length = i := by omega
    have h4 : hp[i]? = none := List.getElem?_eq_none (by omega)
    have h5 : ¬ i < hp.length := by omega
    have h6 : ∀ t : List CharacterRecord, ([t] : List (List CharacterRecord))[i - hp.length]? = none := by
      intro t
      apply List.getElem?_eq_none
      simp only [List.length_singleton]
      omega
    simp [List.getD_eq_getElem?_getD, List.getElem?_set, hne,
      List.getElem?_append, h4, h5, h6]

/-- One call of the heap version of actor_distributions leaves the movie
table, the dataset reference and the table it sees unchanged. -/
lemma adist_heap_preserves (s : DatasetState) (gender lo hi : PyVal) :
    ((actor_distributions_heap s gender lo hi).2).movie_metadata = s.movie_metadata ∧
    ((actor_distributions_heap s gender lo hi).2).charTable = s.charTable := by
  cases gender with
  | str g =>
    by_cases hn : (lo.isInstNum && hi.isInstNum) = true
    · refine ⟨?_, ?_⟩
      · simp [actor_distributions_heap, hn]
      · show (actor_distributions_heap s (.str g) lo hi).2.heap.getD
            (actor_distributions_heap s (.str g) lo hi).2.charRef [] = s.charTable
        simp only [actor_distributions_heap, hn, if_true]
        exact heap_write_preserves s.heap s.charRef
    · have hn2 : (lo.isInstNum && hi.isInstNum) = false := by
        cases hb : (lo.isInstNum && hi.isInstNum)
        · rfl
        · exact absurd hb hn
      refine ⟨?_, ?_⟩ <;> simp [actor_distributions_heap, hn2]
  | int n => exact ⟨rfl, rfl⟩
  | bool b => exact ⟨rfl, rfl⟩
  | float q => exact ⟨rfl, rfl⟩

/-- One aggregator call leaves the loaded tables unchanged. -/
lemma runCall_preserves (s : DatasetState) (c : AggCall) :
    ((runCall s c).2).movie_metadata = s.movie_metadata ∧
    ((runCall s c).2).charTable = s.charTable := by
  cases c with
  | movieType N => exact ⟨rfl, rfl⟩
  | actorCount => exact ⟨rfl, rfl⟩
  | actorDistributions g lo hi =>
    have h := adist_heap_preserves s g lo hi
    cases hres : actor_distributions_heap s g lo hi with
    | mk res s2 =>
      rw [hres] at h
      cases res with
      | ok rows => simpa [runCall, hres] using h
      | error e => simpa [runCall, hres] using h

/-
  Claim theorems.
-/

/-- C1: on a missing movie metadata file, the loading code catches the
file-not-found condition, prints, and returns normally with no tables
set; no error reaches the caller. This evaluates the code at the failing
input and exhibits the divergence from the claim, which requires a
propagated DataUnavailable error. -/
theorem c1_missing_file_error_swallowed :
    load_data { movie_file := none, character_file := some [] } = Except.ok none := rfl

/-- C2: a negative integer passes the isinstance check of movie_type, the
genre tally runs, and nlargest returns an empty table instead of an error,
although the docstring promises ValueError for a negative integer; a
non-integer string is rejected as the claim states. -/
theorem c2_negative_int_not_rejected :
    movie_type moviesEx (.int (-5)) = Except.ok [] ∧
    movie_type moviesEx (.str "ten") = Except.error "N must be an integer." := by
  constructor
  · show movie_type moviesEx (.int (-5)) = Except.ok []
    rfl
  · rfl

/-- C3: for every non-negative integer n, movie_type succeeds and returns
exactly min n (number of distinct genre names) rows, each a pair of a
genre name and its count, sorted by count non-increasing. -/
theorem c3_movie_type_top_rows (movies : List MovieRecord) (n : Nat) :
    ∃ rows : List (String × Nat),
      movie_type movies (.int (n : Int)) = Except.ok rows ∧
      rows.length = min n (specDistinctGenreCount movies) ∧
      rows.Pairwise (fun a b => b.2 ≤ a.2) := by
  refine ⟨nlargest ((n : Int)) (movieCounter movies), ?_, ?_, ?_⟩
  · rfl
  · rw [nlargest_length_nat, movieCounter_length]
  · exact nlargest_sorted _ _

/-- C4: actor_count returns one row per distinct observed per-movie
actor-count value, and the movie counts sum to the number of distinct
movie ids in the character table; the grouping is driven by the character
table alone and each group counts its character rows. -/
theorem c4_actor_count_histogram (chars : List CharacterRecord) :
    ((actor_count chars).map Prod.fst).Nodup ∧
    (∀ v, v ∈ (actor_count chars).map Prod.fst ↔ v ∈ actorCountsPerMovie chars) ∧
    ((actor_count chars).map Prod.snd).sum = (movieIds chars).length := by
  have hfst : (actor_count chars).map Prod.fst = (actorCountsPerMovie chars).dedup := by
    simp [actor_count, valueCounts, List.map_map, Function.comp_def]
  have hsnd : (actor_count chars).map Prod.snd =
      (actorCountsPerMovie chars).dedup.map
        (fun v => (actorCountsPerMovie chars).count v) := by
    simp [actor_count, valueCounts, List.map_map, Function.comp_def]
  refine ⟨?_, ?_, ?_⟩
  · rw [hfst]; exact List.nodup_dedup _
  · intro v; rw [hfst]; exact List.mem_dedup
  · rw [hsnd, sum_dedup_count]
    simp [actorCountsPerMovie]

/-- C5: for every valid call, actor_distributions returns exactly the
order-preserving filter of the character table keeping records whose raw
height coerces with value in the inclusive range and, unless the gender
argument is All, whose gender cell equals the requested value exactly;
non-coercible heights are dropped without error. -/
theorem c5_height_filter (chars : List CharacterRecord) (g : String)
    (lo hi : PyVal) (h1 : lo.isInstNum = true) (h2 : hi.isInstNum = true) :
    actor_distributions chars (.str g) lo hi =
      Except.ok (chars.filter fun r =>
        heightWithin lo.toRat hi.toRat r &&
          (g == "All" || r.actor_gender == some g)) :=
  adist_filter chars g lo hi h1 h2

/-- C5 witness: the filter theorem applied at a concrete table and the
concrete call with gender All and the range 150 to 200. -/
theorem c5_height_filter_witness :
    actor_distributions charsEx (.str "All") (.int 150) (.int 200) =
      Except.ok (charsEx.filter fun r =>
        heightWithin ((PyVal.int 150).toRat) ((PyVal.int 200).toRat) r &&
          ("All" == "All" || r.actor_gender == some "All")) :=
  c5_height_filter charsEx "All" (.int 150) (.int 200) rfl rfl

/-- C6: actor_distributions rejects a non-string gender and a non-numeric
height bound with the matching error, at the boundary: on every error
path the dataset state is returned unchanged, before any aggregation. -/
theorem c6_invalid_args_rejected :
    (∀ (chars : List CharacterRecord) (gender lo hi : PyVal),
      gender.isInstStr = false →
      actor_distributions chars gender lo hi =
        Except.error "Gender must be a string.") ∧
    (∀ (chars : List CharacterRecord) (g : String) (lo hi : PyVal),
      (lo.isInstNum && hi.isInstNum) = false →
      actor_distributions chars (.str g) lo hi =
        Except.error "Height values must be numerical.") ∧
    (∀ (s : DatasetState) (gender lo hi : PyVal) (e : String),
      (actor_distributions_heap s gender lo hi).1 = Except.error e →
      (actor_distributions_heap s gender lo hi).2 = s) := by
  refine ⟨?_, ?_, ?_⟩
  · intro chars gender lo hi h
    cases gender with
    | str s => simp [PyVal.isInstStr] at h
    | int n => rfl
    | bool b => rfl
    | float q => rfl
  · intro chars g lo hi h
    simp [actor_distributions, h]
  · intro s gender lo hi e h
    cases gender with
    | str g =>
      by_cases hn : (lo.isInstNum && hi.isInstNum) = true
      · exfalso
        simp [actor_distributions_heap, hn] at h
      · have hn2 : (lo.isInstNum && hi.isInstNum) = false := by
          cases hb : (lo.isInstNum && hi.isInstNum)
          · rfl
          · exact absurd hb hn
        simp [actor_distributions_heap, hn2]
    | int n => rfl
    | bool b => rfl
    | float q => rfl

/-- C6 witness: the rejection theorem applied at a numeric gender, at a
non-numeric height bound, and at a concrete dataset state. -/
theorem c6_invalid_args_rejected_witness :
    actor_distributions charsEx (.int 123) (.int 0) (.int 300) =
      Except.error "Gender must be a string." ∧
    actor_distributions charsEx (.str "All") (.str "short") (.int 200) =
      Except.error "Height values must be numerical." ∧
    (actor_distributions_heap ⟨[], [charsEx], 0⟩ (.int 123) (.int 0) (.int 300)).2 =
      ⟨[], [charsEx], 0⟩ :=
  ⟨c6_invalid_args_rejected.1 charsEx (.int 123) (.int 0) (.int 300) rfl,
   c6_invalid_args_rejected.2.1 charsEx "All" (.str "short") (.int 200) rfl,
   c6_invalid_args_rejected.2.2 ⟨[], [charsEx], 0⟩ (.int 123) (.int 0) (.int 300)
     "Gender must be a string." rfl⟩

/-- C7: the Counter built by movie_type holds, for each genre name, the
number of times it occurs among the decoded mapping values across all
rows, so names are tallied from the values, a row with an absent or
undecodable genres cell contributes zero counts, and removing such a row
leaves the tally unchanged: aggregation of the remaining rows is not
aborted. -/
theorem c7_genre_tally :
    (∀ (movies : List MovieRecord) (g : String),
      counterCount (movieCounter movies) g = (allGenreNames movies).count g) ∧
    (∀ (ms1 ms2 : List MovieRecord) (m : MovieRecord),
      (m.genres = .na ∨ ∃ raw, m.genres = .malformed raw) →
      movieCounter (ms1 ++ m :: ms2) = movieCounter (ms1 ++ ms2)) := by
  constructor
  · intro movies g
    have h := counterCount_genreFold movies [] g
    simpa [movieCounter, counterCount] using h
  · intro ms1 ms2 m hm
    unfold movieCounter
    rw [List.foldl_append, List.foldl_append, List.foldl_cons]
    rcases hm with h | ⟨raw, h⟩ <;> simp [h]

/-- C7 witness: the tally theorem at a concrete table containing a NaN
genres row and an undecodable genres row, and the skip property at a
concrete NaN row. -/
theorem c7_genre_tally_witness :
    counterCount (movieCounter moviesEx) "Drama" = (allGenreNames moviesEx).count "Drama" ∧
    movieCounter ([] ++ ({ movie_id := "m4", genres := .na } : MovieRecord) ::
        ([] : List MovieRecord)) = movieCounter ([] ++ ([] : List MovieRecord)) :=
  ⟨c7_genre_tally.1 moviesEx "Drama",
   c7_genre_tally.2 [] [] { movie_id := "m4", genres := .na } (Or.inl rfl)⟩

/-- C8: no sequence of aggregator calls changes the loaded movie table or
the character table the dataset sees; the one in-place write of
actor_distributions lands on the fresh copy. -/
theorem c8_no_mutation (s : DatasetState) (calls : List AggCall) :
    (runCalls s calls).movie_metadata = s.movie_metadata ∧
    (runCalls s calls).charTable = s.charTable := by
  induction calls generalizing s with
  | nil => exact ⟨rfl, rfl⟩
  | cons c cs ih =>
    have h1 := runCall_preserves s c
    have h2 := ih ((runCall s c).2)
    simp only [runCalls, List.foldl_cons] at h2 ⊢
    exact ⟨h2.1.trans h1.1, h2.2.trans h1.2⟩

/-- C9 counterexample: a table whose only row has a coercible height, 350,
and gender M satisfies the hypothesis of the claim as stated, yet both
queries return the same empty result, so the first is not a strict subset
of the second. -/
theorem c9_strict_subset_counterexample :
    (∃ r ∈ charsCex, (∃ q, to_numeric r.actor_height = some q) ∧
        r.actor_gender ≠ some "F") ∧
    actor_distributions charsCex (.str "F") (.int 0) (.int 300) =
      Except.ok ([] : List CharacterRecord) ∧
    actor_distributions charsCex (.str "All") (.int 0) (.int 300) =
      Except.ok ([] : List CharacterRecord) := by
  refine ⟨⟨rowM350, ?_, ⟨350, rfl⟩, ?_⟩, ?_, ?_⟩
  · unfold charsCex
    exact List.Mem.head _
  · simp [rowM350]
  · rfl
  · rfl

/-- C9 amended: when some record has a coercible height lying in the
queried range 0 to 300 and a gender other than F, the F query returns a
strict subset of the All query: every returned record is in the All
result and some All record is missing from the F result. -/
theorem c9_amended_strict_subset (chars : List CharacterRecord)
    (h : ∃ r ∈ chars,
        (∃ q, to_numeric r.actor_height = some q ∧ 0 ≤ q ∧ q ≤ 300) ∧
        r.actor_gender ≠ some "F") :
    ∃ resF resAll : List CharacterRecord,
      actor_distributions chars (.str "F") (.int 0) (.int 300) = Except.ok resF ∧
      actor_distributions chars (.str "All") (.int 0) (.int 300) = Except.ok resAll ∧
      (∀ x ∈ resF, x ∈ resAll) ∧ (∃ r ∈ resAll, r ∉ resF) := by
  obtain ⟨r, hr, ⟨q, hq, hq0, hq300⟩, hg⟩ := h
  refine ⟨_, _, adist_filter chars "F" (.int 0) (.int 300) rfl rfl,
          adist_filter chars "All" (.int 0) (.int 300) rfl rfl, ?_, ?_⟩
  · intro x hx
    rw [List.mem_filter] at hx ⊢
    obtain ⟨hx1, hx2⟩ := hx
    rw [Bool.and_eq_true] at hx2
    refine ⟨hx1, ?_⟩
    rw [Bool.and_eq_true]
    exact ⟨hx2.1, by simp⟩
  · refine ⟨r, ?_, ?_⟩
    · rw [List.mem_filter]
      refine ⟨hr, ?_⟩
      rw [Bool.and_eq_true]
      constructor
      · simp [heightWithin, hq, PyVal.toRat]
        exact ⟨hq0, hq300⟩
      · simp
    · intro hmem
      rw [List.mem_filter] at hmem
      have hg2 := hmem.2
      rw [Bool.and_eq_true] at hg2
      have hg3 := hg2.2
      simp at hg3
      exact hg (by simpa using hg3)

/-- C9 amended witness: the strict-subset theorem applied at the concrete
table, whose second row has gender M and height 180 inside the range. -/
theorem c9_amended_strict_subset_witness :
    ∃ resF resAll : List CharacterRecord,
      actor_distributions charsEx (.str "F") (.int 0) (.int 300) = Except.ok resF ∧
      actor_distributions charsEx (.str "All") (.int 0) (.int 300) = Except.ok resAll ∧
      (∀ x ∈ resF, x ∈ resAll) ∧ (∃ r ∈ resAll, r ∉ resF) := by
  apply c9_amended_strict_subset
  have hmem : rowM180 ∈ charsEx := by
    unfold charsEx
    exact List.Mem.tail _ (List.Mem.head _)
  exact ⟨rowM180, hmem, ⟨180, rfl, by norm_num, by norm_num⟩, by simp [rowM180]⟩

/-- C10: a bool passes the integer check of movie_type, True behaving as
one and False as zero: movie_type on True succeeds with at most one row
and movie_type on False succeeds with zero rows. -/
theorem c10_bool_passes_int_check (movies : List MovieRecord) :
    (∃ rows : List (String × Nat),
      movie_type movies (.bool true) = Except.ok rows ∧ rows.length ≤ 1) ∧
    movie_type movies (.bool false) = Except.ok [] := by
  constructor
  · refine ⟨nlargest ((PyVal.bool true).toInt) (movieCounter movies), rfl, ?_⟩
    have h1 : (PyVal.bool true).toInt = 1 := rfl
    rw [h1]
    unfold nlargest
    rw [if_neg (by norm_num : ¬ (1 : Int) ≤ 0)]
    simp [List.length_take]
  · rfl

end MovieDS
